import Mathlib

/-!
Verification of the trade-signal server's quota / delivery logic
(`crud.py`, `models.py`, `main.py`) against its natural-language
specification.

The relational store is embedded as lists of rows; SQLAlchemy queries
become list filters/finds; the Python functions of `crud.py` become the
Lean functions below with the same names and the same branch structure.
Machine integers are `Int`/`Nat` (Python integers are unbounded, so no
modular wrap is needed).  The SHA-256 token hash is modelled as an
injective encoding (the identity on strings), which is exactly the role
the hash plays in the delivery-dedup logic.  Timestamps are seconds
since the UTC epoch, so midnight of the current UTC day is
`now / 86400 * 86400`.
-/

/-- Row of the `users` table (`models.User`).  Columns the quota and
delivery logic never touches (email, username, timestamps) are omitted.
`daily_quota` is the optional per-user quota override column
(`models.py`: "None means unlimited"). -/
structure User where
  id : Nat
  api_key : String
  plan : String
  daily_quota : Option Int
  is_active : Bool
deriving DecidableEq, Repr

/-- Row of the `api_tokens` table (`APIToken`), as used by `crud.py`:
an opaque token string owned by a user, with a per-token plan. -/
structure APIToken where
  token : String
  user_id : Nat
  plan : Option String
  is_active : Bool
deriving DecidableEq, Repr

/-- Row of the `trade_signals` table (`models.TradeSignal`); only the
columns the delivery logic reads (id, author, action, created time). -/
structure TradeSignal where
  id : Nat
  user_id : Nat
  action : String
  created_at : Nat
deriving DecidableEq, Repr

/-- Row of the `subscriptions` table (`Subscription`): receiver follows
sender. -/
structure Subscription where
  receiver_id : Nat
  sender_id : Nat
deriving DecidableEq, Repr

/-- Row of the `signal_reads` table (`SignalRead`): the Delivery Record
stamped by `_record_read_once` for (signal, receiver, token_hash). -/
structure SignalRead where
  signal_id : Nat
  receiver_id : Nat
  token_hash : String
  read_at : Nat
deriving DecidableEq, Repr

/-- The relational store visible to `crud.py`. -/
structure DB where
  users : List User
  tokens : List APIToken
  signals : List TradeSignal
  subs : List Subscription
  reads : List SignalRead
deriving DecidableEq, Repr

/-- `crud.PLAN_DEFAULTS` plan-limits record: optional finite daily
quota plus the unlimited flag. -/
structure Limits where
  daily_quota : Option Int
  unlimited : Bool
deriving DecidableEq, Repr

/-- `crud.PLAN_DEFAULTS`: free has quota 1, silver 3, gold is
unlimited (quota None). -/
def PLAN_DEFAULTS : List (String × Limits) :=
  [("free", ⟨some 1, false⟩), ("silver", ⟨some 3, false⟩), ("gold", ⟨none, true⟩)]

/-- Python `str.strip()`: drop whitespace from both ends (on the
character-list model of strings). -/
def py_strip (s : String) : String :=
  ⟨((s.data.dropWhile Char.isWhitespace).reverse.dropWhile Char.isWhitespace).reverse⟩

/-- Python `str.lower()`: lowercase each character. -/
def py_lower (s : String) : String :=
  ⟨s.data.map Char.toLower⟩

/-- `crud.normalize_plan`: `(plan or "").strip().lower()`, falling back
to `"free"` when the result is not a key of `PLAN_DEFAULTS`. -/
def normalize_plan (plan : Option String) : String :=
  let p := py_lower (py_strip (plan.getD ""))
  if (PLAN_DEFAULTS.lookup p).isSome then p else "free"

/-- `crud.plan_limits`: the `PLAN_DEFAULTS` entry of the normalized
plan (total, since `normalize_plan` always lands on a key). -/
def plan_limits (plan : Option String) : Limits :=
  (PLAN_DEFAULTS.lookup (normalize_plan plan)).getD ⟨some 1, false⟩

/-- `crud.hash_token_for_read`: SHA-256 modelled as an injective
encoding of the token (here, the token itself). -/
def hash_token_for_read (token : String) : String := token

/-- `crud.start_of_utc_day`: midnight (UTC) of the day containing `ts`,
with timestamps in seconds since the epoch. -/
def start_of_utc_day (ts : Nat) : Nat := ts / 86400 * 86400

/-- `crud.user_by_api_token`: resolve a bearer token via the active
rows of the `APIToken` table (owner must exist and be active), else via
the legacy `User.api_key` column; `None` when both fail. -/
def user_by_api_token (db : DB) (token : String) : Option User :=
  let viaTok : Option User :=
    match db.tokens.find? (fun t => t.token == token && t.is_active) with
    | some tok =>
      match db.users.find? (fun u => u.id == tok.user_id) with
      | some u => if u.is_active then some u else none
      | none => none
    | none => none
  match viaTok with
  | some u => some u
  | none => db.users.find? (fun u => u.api_key == token && u.is_active)

/-- `crud.token_record`: the `APIToken` row for a token string
(no activity filter). -/
def token_record (db : DB) (token : String) : Option APIToken :=
  db.tokens.find? (fun t => t.token == token)

/-- `crud.subscriptions_for_receiver`: all subscription rows of a
receiver. -/
def subscriptions_for_receiver (db : DB) (receiver : User) : List Subscription :=
  db.subs.filter (fun s => s.receiver_id == receiver.id)

/-- Bool test for the actionable actions `buy`/`sell`
(`TradeSignal.action.in_(["buy", "sell"])`). -/
def is_buy_sell (action : String) : Bool :=
  action == "buy" || action == "sell"

/-- `crud.count_actionable_opens_today`: number of distinct actionable
signals having a read for this receiver stamped at or after the current
UTC midnight (the join with `trade_signals` filters on action). -/
def count_actionable_opens_today (db : DB) (receiver : User) (now : Nat) : Nat :=
  let today_utc := start_of_utc_day now
  (((db.reads.filter (fun r =>
      r.receiver_id == receiver.id &&
      decide (today_utc ≤ r.read_at) &&
      db.signals.any (fun s => s.id == r.signal_id && is_buy_sell s.action))).map
    (fun r => r.signal_id)).dedup).length

/-- `crud.token_daily_usage_today`: as above but restricted to reads
stamped under the given token hash. -/
def token_daily_usage_today (db : DB) (receiver : User) (token_hash : String) (now : Nat) : Nat :=
  let today_utc := start_of_utc_day now
  (((db.reads.filter (fun r =>
      r.receiver_id == receiver.id &&
      r.token_hash == token_hash &&
      decide (today_utc ≤ r.read_at) &&
      db.signals.any (fun s => s.id == r.signal_id && is_buy_sell s.action))).map
    (fun r => r.signal_id)).dedup).length

/-- `crud.effective_quota_for_token`: the token's own plan when the
token exists in the `APIToken` table, else the receiver's legacy plan;
returns `(is_unlimited, daily_quota)`. -/
def effective_quota_for_token (db : DB) (receiver : User) (bearer_token : Option String) :
    Bool × Option Int :=
  let viaTok : Option (Bool × Option Int) :=
    match bearer_token with
    | some bt =>
      if bt == "" then none
      else
        match token_record db bt with
        | some tok => some ((plan_limits tok.plan).unlimited, (plan_limits tok.plan).daily_quota)
        | none => none
    | none => none
  match viaTok with
  | some r => r
  | none =>
    let l := plan_limits (some (if receiver.plan == "" then "free" else receiver.plan))
    (l.unlimited, l.daily_quota)

/-- `crud._was_read_by_token`: does a `SignalRead` row exist for
(signal, receiver, token_hash)? -/
def _was_read_by_token (db : DB) (receiver : User) (signal : TradeSignal) (token_hash : String) : Bool :=
  db.reads.any (fun r =>
    r.signal_id == signal.id && r.receiver_id == receiver.id && r.token_hash == token_hash)

/-- `crud._record_read_once`: insert a `SignalRead` for
(signal, receiver, token_hash) unless one already exists. -/
def _record_read_once (db : DB) (receiver : User) (signal : TradeSignal)
    (token_hash : String) (now : Nat) : DB :=
  if _was_read_by_token db receiver signal token_hash then db
  else { db with reads := db.reads ++ [⟨signal.id, receiver.id, token_hash, now⟩] }

/-- Descending insertion by signal id, for `order_by(TradeSignal.id.desc())`. -/
def insert_desc (s : TradeSignal) : List TradeSignal → List TradeSignal
  | [] => [s]
  | t :: ts => if s.id ≤ t.id then t :: insert_desc s ts else s :: t :: ts

/-- Sort signals by id, descending (`order_by(TradeSignal.id.desc())`). -/
def sort_desc_by_id : List TradeSignal → List TradeSignal
  | [] => []
  | s :: ss => insert_desc s (sort_desc_by_id ss)

/-- The candidate window of `latest_signals_for_token`: signals of the
subscribed senders, newest (largest id) first, limited to
`max(200, limit)`. -/
def candidate_signals (db : DB) (sender_ids : List Nat) (limit : Nat) : List TradeSignal :=
  (sort_desc_by_id (db.signals.filter (fun s => sender_ids.contains s.user_id))).take
    (max 200 limit)

/-- Quota metadata returned by `latest_signals_for_token` (the Python
dict; keys absent in a branch are `none`). -/
structure DeliverMeta where
  plan : String
  unlimited : Bool
  daily_quota : Option Int
  remaining : Option Int
  used_today : Option Nat
  token_used_today : Option Nat
deriving DecidableEq, Repr

/-- Successful result of `latest_signals_for_token`. -/
structure DeliverOk where
  receiver : User
  delivered : List TradeSignal
  meta : DeliverMeta
deriving DecidableEq, Repr

/-- State of the finite-plan delivery loop of
`latest_signals_for_token` (db, `delivered`, `actionable_seen`,
`remaining`). -/
structure LoopOut where
  db : DB
  delivered : List TradeSignal
  seen : Nat
  remaining : Int
deriving DecidableEq, Repr

/-- The finite-plan `for s in signals` loop of
`latest_signals_for_token`.  Note the two `continue` branches skip the
`len(delivered) >= limit` break test, exactly as in the source. -/
def deliver_loop (receiver : User) (th : String) (now : Nat) (limit : Nat) :
    List TradeSignal → DB → List TradeSignal → Nat → Int → LoopOut
  | [], db, delivered, seen, remaining => ⟨db, delivered, seen, remaining⟩
  | s :: rest, db, delivered, seen, remaining =>
    if is_buy_sell s.action then
      if remaining ≤ 0 then
        -- quota exhausted; skip actionable (a `continue`: no break test)
        deliver_loop receiver th now limit rest db delivered seen remaining
      else if _was_read_by_token db receiver s th then
        -- already counted for this token; return it without charging
        -- (a `continue`: no break test)
        deliver_loop receiver th now limit rest db (delivered ++ [s]) seen remaining
      else if limit ≤ (delivered ++ [s]).length then
        -- consume one quota unit, then `len(delivered) >= limit` breaks
        ⟨_record_read_once db receiver s th now, delivered ++ [s], seen + 1, remaining - 1⟩
      else
        deliver_loop receiver th now limit rest (_record_read_once db receiver s th now)
          (delivered ++ [s]) (seen + 1) (remaining - 1)
    else
      -- non-actionable: return but record read for dedupe
      if limit ≤ (delivered ++ [s]).length then
        ⟨_record_read_once db receiver s th now, delivered ++ [s], seen, remaining⟩
      else
        deliver_loop receiver th now limit rest (_record_read_once db receiver s th now)
          (delivered ++ [s]) seen remaining

/-- The unlimited (gold) branch: record and return every signal in the
window, truncated to `limit`. -/
def record_all (receiver : User) (th : String) (now : Nat) :
    List TradeSignal → DB → List TradeSignal → DB × List TradeSignal
  | [], db, delivered => (db, delivered)
  | s :: rest, db, delivered =>
    record_all receiver th now rest (_record_read_once db receiver s th now) (delivered ++ [s])

/-- `crud.latest_signals_for_token`: resolve the token, collect the
subscribed senders' latest signals, enforce the per-user and per-token
daily quota on actionable signals, stamp delivery records, and return
the delivered list plus quota metadata.  An invalid or inactive token
raises (`Except.error`) with the store untouched. -/
def latest_signals_for_token (db : DB) (receiver_token : String) (limit : Nat) (now : Nat) :
    Except String DeliverOk × DB :=
  match user_by_api_token db receiver_token with
  | none => (.error "Invalid or inactive API token", db)
  | some receiver =>
    if receiver.is_active then
      let sender_ids := (subscriptions_for_receiver db receiver).map (fun s => s.sender_id)
      if sender_ids.isEmpty then
        (.ok ⟨receiver, [], ⟨receiver.plan, false, some 0, some 0, none, none⟩⟩, db)
      else
        let eq := effective_quota_for_token db receiver (some receiver_token)
        let token_hash := hash_token_for_read receiver_token
        let signals := candidate_signals db sender_ids limit
        let total_used := count_actionable_opens_today db receiver now
        let token_used := token_daily_usage_today db receiver token_hash now
        if eq.1 then
          let out := record_all receiver token_hash now (signals.take limit) db []
          (.ok ⟨receiver, out.2,
            ⟨"gold", true, none, none, some total_used, some token_used⟩⟩, out.1)
        else
          let quota : Int := eq.2.getD 0
          let remaining0 : Int :=
            min (max (quota - (total_used : Int)) 0) (max (quota - (token_used : Int)) 0)
          let out := deliver_loop receiver token_hash now limit signals db [] 0 remaining0
          (.ok ⟨receiver, out.delivered,
            ⟨receiver.plan, false, some quota, some out.remaining,
             some (total_used + out.seen), some (token_used + out.seen)⟩⟩, out.db)
    else (.error "Invalid or inactive API token", db)

/-- Delivered list of a `latest_signals_for_token` result (empty on the
error path). -/
def deliver_result_delivered (r : Except String DeliverOk × DB) : List TradeSignal :=
  match r.1 with
  | .ok o => o.delivered
  | .error _ => []

/-- `used_today` metadata of a `latest_signals_for_token` result. -/
def deliver_result_used_today (r : Except String DeliverOk × DB) : Option Nat :=
  match r.1 with
  | .ok o => o.meta.used_today
  | .error _ => none

/-- Did `latest_signals_for_token` return normally (no exception)? -/
def deliver_result_is_ok (r : Except String DeliverOk × DB) : Bool :=
  match r.1 with
  | .ok _ => true
  | .error _ => false

/-- `RemainingToday` of the spec, as computed by the code: the finite
branch of `crud.latest_signals_for_token` lines 221-222 (`remaining_total`)
— `None` (unlimited sentinel) for an unlimited plan, else
`max(effective_quota - used_today, 0)` with `used_today` from
`count_actionable_opens_today`. -/
def remaining_today (db : DB) (receiver : User) (bearer : Option String) (now : Nat) :
    Option Int :=
  let eq := effective_quota_for_token db receiver bearer
  if eq.1 then none
  else some (max ((eq.2.getD 0) - (count_actionable_opens_today db receiver now : Int)) 0)

/-- The (signal, receiver, token_hash) key of a Delivery Record —
the column triple of the dedup check `_was_read_by_token`. -/
def read_key (r : SignalRead) : Nat × Nat × String :=
  (r.signal_id, r.receiver_id, r.token_hash)

/-- The (signal, receiver) pair of a Delivery Record — the key the
spec's deduplication invariant is stated over. -/
def read_pair (r : SignalRead) : Nat × Nat :=
  (r.signal_id, r.receiver_id)

/-- No two Delivery Records share the (signal, receiver, token_hash)
triple — the uniqueness the code's partial index
`uniq_signal_reads_token_signal` enforces. -/
def reads_nodup (db : DB) : Prop :=
  (db.reads.map read_key).Nodup

/-- Scenario store: one receiver (id 1, legacy token `tkA`, plan
`free`), subscribed to sender 2 who has published a single `buy`
signal; nothing delivered yet. -/
def exC1db : DB :=
  { users := [⟨1, "tkA", "free", none, true⟩],
    tokens := [],
    signals := [⟨1, 2, "buy", 500⟩],
    subs := [⟨1, 2⟩],
    reads := [] }

/-- Scenario store: receiver 1 (plan `free`, quota 1) has already
consumed today's quota on signal 1 (authored by unsubscribed sender 3);
subscribed sender 2 offers five candidates — non-actionable 2 (`close`),
4 (`hold`), 6 (`adjust_sl`) and actionable 3 (`buy`), 5 (`sell`). -/
def exC2db : DB :=
  { users := [⟨1, "tkA", "free", none, true⟩],
    tokens := [],
    signals := [⟨1, 3, "buy", 50⟩, ⟨2, 2, "close", 110⟩, ⟨3, 2, "buy", 120⟩,
                ⟨4, 2, "hold", 130⟩, ⟨5, 2, "sell", 140⟩, ⟨6, 2, "adjust_sl", 150⟩],
    subs := [⟨1, 2⟩],
    reads := [⟨1, 1, "tkA", 100⟩] }

/-- Scenario store: receiver 1 on plan `free` with one actionable
delivery stamped at time 100 — i.e. on UTC day 0. -/
def exC3db : DB :=
  { users := [⟨1, "tkA", "free", none, true⟩],
    tokens := [],
    signals := [⟨1, 2, "buy", 100⟩],
    subs := [⟨1, 2⟩],
    reads := [⟨1, 1, "tkA", 100⟩] }

/-- Scenario store: user 1 owns two active `silver` bearer tokens `t1`
and `t2`; sender 2 has one `buy` signal; nothing delivered yet. -/
def exC4db : DB :=
  { users := [⟨1, "ux", "free", none, true⟩],
    tokens := [⟨"t1", 1, some "silver", true⟩, ⟨"t2", 1, some "silver", true⟩],
    signals := [⟨1, 2, "buy", 500⟩],
    subs := [⟨1, 2⟩],
    reads := [] }

/-- Scenario store: receiver 1 carries an explicit quota override of 0
(`daily_quota = 0`) on plan `free`; sender 2 offers one undelivered
`buy` signal. -/
def exC6db : DB :=
  { users := [⟨1, "tkA", "free", some 0, true⟩],
    tokens := [],
    signals := [⟨1, 2, "buy", 500⟩],
    subs := [⟨1, 2⟩],
    reads := [] }

/-- Scenario store: user 1 is deactivated and its bearer token `tkB`
is deactivated too, so neither credential path can resolve it. -/
def exC7db : DB :=
  { users := [⟨1, "tkA", "free", none, false⟩],
    tokens := [⟨"tkB", 1, some "gold", false⟩],
    signals := [⟨1, 2, "buy", 500⟩],
    subs := [⟨1, 2⟩],
    reads := [⟨9, 7, "zz", 100⟩] }

/-- Scenario store: receiver 1 on plan `free` (quota 1) already has two
actionable deliveries stamped today under token `tkA` (recorded before
a plan downgrade), plus a third undelivered `buy` candidate. -/
def exC10db : DB :=
  { users := [⟨1, "tkA", "free", none, true⟩],
    tokens := [],
    signals := [⟨1, 2, "buy", 100⟩, ⟨2, 2, "buy", 200⟩, ⟨3, 2, "buy", 300⟩],
    subs := [⟨1, 2⟩],
    reads := [⟨1, 1, "tkA", 100⟩, ⟨2, 1, "tkA", 200⟩] }

/-- The `remaining` value computed at the start of the finite-plan
branch of `latest_signals_for_token`: the minimum of the per-user and
per-token remaining amounts, each clamped at 0
(`min(max(quota - total_used, 0), max(quota - token_used, 0))`). -/
def initial_remaining (db : DB) (receiver : User) (tok : String) (now : Nat) : Int :=
  min
    (max ((effective_quota_for_token db receiver (some tok)).2.getD 0
      - (count_actionable_opens_today db receiver now : Int)) 0)
    (max ((effective_quota_for_token db receiver (some tok)).2.getD 0
      - (token_daily_usage_today db receiver (hash_token_for_read tok) now : Int)) 0)

/-- The finite-plan branch of `latest_signals_for_token`, factored out
so that theorems can reduce the full function to it once the
authentication, subscription and plan tests are fixed. -/
def finite_branch (db : DB) (tok : String) (limit now : Nat) (receiver : User) :
    Except String DeliverOk × DB :=
  let token_hash := hash_token_for_read tok
  let signals := candidate_signals db
    ((subscriptions_for_receiver db receiver).map (fun s => s.sender_id)) limit
  let total_used := count_actionable_opens_today db receiver now
  let token_used := token_daily_usage_today db receiver token_hash now
  let quota : Int := (effective_quota_for_token db receiver (some tok)).2.getD 0
  let out := deliver_loop receiver token_hash now limit signals db [] 0
    (initial_remaining db receiver tok now)
  (.ok ⟨receiver, out.delivered,
    ⟨receiver.plan, false, some quota, some out.remaining,
     some (total_used + out.seen), some (token_used + out.seen)⟩⟩, out.db)

/-- C1: fails on the code.  On `exC1db` (plan `free`, quota 1, one
`buy` signal) the first poll delivers the signal and stamps its
Delivery Record, yet a second identical poll on the same UTC day
returns the empty list: the previously delivered signal is dropped
because the `remaining <= 0` check precedes the already-delivered
check, so re-polling is not idempotent and a Delivery-Recorded signal
is not always included. -/
theorem c1_redelivery_fails_eval :
    (deliver_result_delivered (latest_signals_for_token exC1db "tkA" 10 1000)).map
        (fun s => s.id) = [1]
    ∧ _was_read_by_token (latest_signals_for_token exC1db "tkA" 10 1000).2
        ⟨1, "tkA", "free", none, true⟩ ⟨1, 2, "buy", 500⟩ "tkA" = true
    ∧ deliver_result_delivered
        (latest_signals_for_token (latest_signals_for_token exC1db "tkA" 10 1000).2
          "tkA" 10 2000) = [] := by
  decide

/-- C4: counterexample to "at most one Delivery Record per (identity,
signal) pair".  Starting from `exC4db` (no reads, two active tokens of
user 1), delivering the same signal through token `t1` and then `t2`
leaves two Delivery Records for the pair (signal 1, receiver 1). -/
theorem c4_pair_uniqueness_counterexample :
    (exC4db.reads.map read_pair).Nodup
    ∧ ¬ ((((latest_signals_for_token
            (latest_signals_for_token exC4db "t1" 10 1000).2 "t2" 10 2000).2).reads.map
          read_pair).Nodup) := by
  decide

/-- C6: counterexample to "an override of 0 blocks the identity".  On
`exC6db` the receiver has `daily_quota = 0`, yet the effective quota is
the plan default 1 (the override column is never consulted) and a new
actionable signal is delivered and charged. -/
theorem c6_override_zero_counterexample :
    effective_quota_for_token exC6db ⟨1, "tkA", "free", some 0, true⟩ (some "tkA")
        = (false, some 1)
    ∧ (deliver_result_delivered (latest_signals_for_token exC6db "tkA" 10 1000)).map
        (fun s => s.id) = [1]
    ∧ deliver_result_used_today (latest_signals_for_token exC6db "tkA" 10 1000) = some 1 := by
  decide

/-- C10: counterexample to the unclamped bound "newly charged ≤
min(Q - total_used_today, Q - token_used_today)".  On `exC10db` the
receiver's usage (2) already exceeds the quota (1), so the bound is
-1 while the call charges 0 new signals — and 0 ≰ -1. -/
theorem c10_unclamped_bound_counterexample :
    ¬ (((deliver_result_used_today (latest_signals_for_token exC10db "tkA" 10 1000)).getD 0 : Int)
          - (count_actionable_opens_today exC10db ⟨1, "tkA", "free", none, true⟩ 1000 : Int)
        ≤ min
            (((effective_quota_for_token exC10db ⟨1, "tkA", "free", none, true⟩
                  (some "tkA")).2.getD 0)
              - (count_actionable_opens_today exC10db ⟨1, "tkA", "free", none, true⟩ 1000 : Int))
            (((effective_quota_for_token exC10db ⟨1, "tkA", "free", none, true⟩
                  (some "tkA")).2.getD 0)
              - (token_daily_usage_today exC10db ⟨1, "tkA", "free", none, true⟩ "tkA" 1000 : Int))) := by
  decide

-- ===== loop lemmas =====

theorem deliver_loop_exhausted_seen (receiver : User) (th : String) (now limit : Nat) :
    ∀ (cands : List TradeSignal) (db : DB) (acc : List TradeSignal) (seen : Nat) (r : Int),
      r ≤ 0 →
      (deliver_loop receiver th now limit cands db acc seen r).seen = seen := by
  intro cands
  induction cands with
  | nil => intro db acc seen r _; rfl
  | cons s rest ih =>
    intro db acc seen r hr
    rw [deliver_loop]
    by_cases hb : is_buy_sell s.action = true
    · rw [if_pos hb, if_pos hr]
      exact ih db acc seen r hr
    · rw [if_neg hb]
      by_cases hl : limit ≤ (acc ++ [s]).length
      · rw [if_pos hl]
      · rw [if_neg hl]
        exact ih _ _ _ _ hr

theorem deliver_loop_exhausted_delivered (receiver : User) (th : String) (now limit : Nat) :
    ∀ (cands : List TradeSignal) (db : DB) (acc : List TradeSignal) (seen : Nat) (r : Int),
      r ≤ 0 → acc.length < limit →
      (deliver_loop receiver th now limit cands db acc seen r).delivered
        = acc ++ (cands.filter (fun s => !is_buy_sell s.action)).take (limit - acc.length) := by
  intro cands
  induction cands with
  | nil => intro db acc seen r _ _; simp [deliver_loop]
  | cons s rest ih =>
    intro db acc seen r hr hacc
    rw [deliver_loop]
    by_cases hb : is_buy_sell s.action = true
    · rw [if_pos hb, if_pos hr, List.filter_cons_of_neg (by simp [hb])]
      exact ih db acc seen r hr hacc
    · rw [if_neg hb, List.filter_cons_of_pos (by simp [hb])]
      by_cases hl : limit ≤ (acc ++ [s]).length
      · rw [if_pos hl]
        simp only [List.length_append, List.length_singleton] at hl
        have hlim : limit - acc.length = 1 := by omega
        simp [hlim]
      · rw [if_neg hl]
        simp only [List.length_append, List.length_singleton] at hl
        rw [ih _ _ _ _ hr (by simp; omega)]
        have h1 : limit - (acc ++ [s]).length = limit - acc.length - 1 := by
          simp; omega
        have h2 : limit - acc.length = (limit - acc.length - 1) + 1 := by omega
        rw [h1, h2, List.take_succ_cons]
        simp

theorem deliver_loop_exhausted_reads (receiver : User) (th : String) (now limit : Nat) :
    ∀ (cands : List TradeSignal) (db : DB) (acc : List TradeSignal) (seen : Nat) (r : Int),
      r ≤ 0 →
      ∀ x ∈ (deliver_loop receiver th now limit cands db acc seen r).db.reads,
        x ∈ db.reads ∨ ∃ c ∈ cands, is_buy_sell c.action = false ∧
          x = ⟨c.id, receiver.id, th, now⟩ := by
  intro cands
  induction cands with
  | nil => intro db acc seen r _ x hx; exact Or.inl hx
  | cons s rest ih =>
    intro db acc seen r hr x hx
    rw [deliver_loop] at hx
    by_cases hb : is_buy_sell s.action = true
    · rw [if_pos hb, if_pos hr] at hx
      rcases ih db acc seen r hr x hx with h | ⟨c, hc, hca, hcx⟩
      · exact Or.inl h
      · exact Or.inr ⟨c, List.mem_cons_of_mem _ hc, hca, hcx⟩
    · rw [if_neg hb] at hx
      have hb' : is_buy_sell s.action = false := by
        cases h : is_buy_sell s.action
        · rfl
        · exact absurd h hb
      have hrec : ∀ y ∈ (_record_read_once db receiver s th now).reads,
          y ∈ db.reads ∨ y = (⟨s.id, receiver.id, th, now⟩ : SignalRead) := by
        intro y hy
        unfold _record_read_once at hy
        by_cases hw : _was_read_by_token db receiver s th = true
        · rw [if_pos hw] at hy; exact Or.inl hy
        · rw [if_neg hw] at hy
          simp only [List.mem_append, List.mem_singleton] at hy
          exact hy
      by_cases hl : limit ≤ (acc ++ [s]).length
      · rw [if_pos hl] at hx
        rcases hrec x hx with h | h
        · exact Or.inl h
        · exact Or.inr ⟨s, List.mem_cons_self _ _, hb', h⟩
      · rw [if_neg hl] at hx
        rcases ih _ _ _ _ hr x hx with h | ⟨c, hc, hca, hcx⟩
        · rcases hrec x h with h' | h'
          · exact Or.inl h'
          · exact Or.inr ⟨s, List.mem_cons_self _ _, hb', h'⟩
        · exact Or.inr ⟨c, List.mem_cons_of_mem _ hc, hca, hcx⟩

theorem deliver_loop_seen_le (receiver : User) (th : String) (now limit : Nat) :
    ∀ (cands : List TradeSignal) (db : DB) (acc : List TradeSignal) (seen : Nat) (r : Int),
      ((deliver_loop receiver th now limit cands db acc seen r).seen : Int)
        ≤ (seen : Int) + max r 0 := by
  intro cands
  induction cands with
  | nil =>
    intro db acc seen r
    simp only [deliver_loop]
    have : (0 : Int) ≤ max r 0 := le_max_right _ _
    omega
  | cons s rest ih =>
    intro db acc seen r
    rw [deliver_loop]
    by_cases hb : is_buy_sell s.action = true
    · rw [if_pos hb]
      by_cases hr : r ≤ 0
      · rw [if_pos hr]; exact ih db acc seen r
      · rw [if_neg hr]
        by_cases hw : _was_read_by_token db receiver s th = true
        · rw [if_pos hw]; exact ih db _ seen r
        · rw [if_neg hw]
          have hmax : max r 0 = r := max_eq_left (by omega)
          by_cases hl : limit ≤ (acc ++ [s]).length
          · rw [if_pos hl]
            simp only []
            omega
          · rw [if_neg hl]
            have := ih (_record_read_once db receiver s th now) (acc ++ [s]) (seen + 1) (r - 1)
            have hmax' : max (r - 1) 0 = r - 1 := max_eq_left (by omega)
            omega
    · rw [if_neg hb]
      by_cases hl : limit ≤ (acc ++ [s]).length
      · rw [if_pos hl]
        simp only []
        have : (0 : Int) ≤ max r 0 := le_max_right _ _
        omega
      · rw [if_neg hl]
        exact ih _ _ seen r

-- ===== nodup preservation =====

theorem record_read_once_nodup (db : DB) (receiver : User) (s : TradeSignal)
    (th : String) (now : Nat) (h : reads_nodup db) :
    reads_nodup (_record_read_once db receiver s th now) := by
  unfold _record_read_once
  by_cases hw : _was_read_by_token db receiver s th = true
  · rw [if_pos hw]; exact h
  · rw [if_neg hw]
    unfold reads_nodup at *
    simp only [List.map_append, List.map_cons, List.map_nil]
    rw [List.nodup_append]
    refine ⟨h, List.nodup_singleton _, ?_⟩
    intro x hx hx2
    simp only [List.mem_singleton] at hx2
    subst hx2
    obtain ⟨r, hr, hrk⟩ := List.mem_map.1 hx
    apply hw
    unfold _was_read_by_token
    rw [List.any_eq_true]
    refine ⟨r, hr, ?_⟩
    unfold read_key at hrk
    simp only [Prod.mk.injEq] at hrk
    simp [hrk.1, hrk.2.1, hrk.2.2]

theorem deliver_loop_nodup (receiver : User) (th : String) (now limit : Nat) :
    ∀ (cands : List TradeSignal) (db : DB) (acc : List TradeSignal) (seen : Nat) (r : Int),
      reads_nodup db →
      reads_nodup (deliver_loop receiver th now limit cands db acc seen r).db := by
  intro cands
  induction cands with
  | nil => intro db acc seen r h; exact h
  | cons s rest ih =>
    intro db acc seen r h
    rw [deliver_loop]
    by_cases hb : is_buy_sell s.action = true
    · rw [if_pos hb]
      by_cases hr : r ≤ 0
      · rw [if_pos hr]; exact ih db acc seen r h
      · rw [if_neg hr]
        by_cases hw : _was_read_by_token db receiver s th = true
        · rw [if_pos hw]; exact ih db _ seen r h
        · rw [if_neg hw]
          by_cases hl : limit ≤ (acc ++ [s]).length
          · rw [if_pos hl]
            exact record_read_once_nodup db receiver s th now h
          · rw [if_neg hl]
            exact ih _ _ _ _ (record_read_once_nodup db receiver s th now h)
    · rw [if_neg hb]
      by_cases hl : limit ≤ (acc ++ [s]).length
      · rw [if_pos hl]
        exact record_read_once_nodup db receiver s th now h
      · rw [if_neg hl]
        exact ih _ _ _ _ (record_read_once_nodup db receiver s th now h)

theorem record_all_nodup (receiver : User) (th : String) (now : Nat) :
    ∀ (cands : List TradeSignal) (db : DB) (acc : List TradeSignal),
      reads_nodup db →
      reads_nodup (record_all receiver th now cands db acc).1 := by
  intro cands
  induction cands with
  | nil => intro db acc h; exact h
  | cons s rest ih =>
    intro db acc h
    rw [record_all]
    exact ih _ _ (record_read_once_nodup db receiver s th now h)

-- ===== candidate membership =====

theorem mem_insert_desc (s a : TradeSignal) :
    ∀ (l : List TradeSignal), a ∈ insert_desc s l ↔ a = s ∨ a ∈ l := by
  intro l
  induction l with
  | nil => simp [insert_desc]
  | cons t ts ih =>
    rw [insert_desc]
    by_cases hc : s.id ≤ t.id
    · rw [if_pos hc]
      simp only [List.mem_cons, ih]
      tauto
    · rw [if_neg hc]
      simp only [List.mem_cons]

theorem mem_sort_desc (a : TradeSignal) :
    ∀ (l : List TradeSignal), a ∈ sort_desc_by_id l ↔ a ∈ l := by
  intro l
  induction l with
  | nil => simp [sort_desc_by_id]
  | cons s ss ih =>
    rw [sort_desc_by_id, mem_insert_desc]
    simp [ih]

theorem candidate_signals_subset (db : DB) (ids : List Nat) (limit : Nat) (s : TradeSignal)
    (h : s ∈ candidate_signals db ids limit) : s ∈ db.signals := by
  unfold candidate_signals at h
  have h2 := List.take_subset _ _ h
  rw [mem_sort_desc] at h2
  exact List.mem_of_mem_filter h2

/-- Once the token resolves to an active receiver with at least one
subscription and a finite (non-gold) plan, `latest_signals_for_token`
is exactly its finite-plan branch. -/
theorem latest_finite_eq (db : DB) (tok : String) (limit now : Nat) (receiver : User)
    (h1 : user_by_api_token db tok = some receiver)
    (h2 : receiver.is_active = true)
    (h3 : ((subscriptions_for_receiver db receiver).map (fun s => s.sender_id)).isEmpty = false)
    (h4 : (effective_quota_for_token db receiver (some tok)).1 = false) :
    latest_signals_for_token db tok limit now = finite_branch db tok limit now receiver := by
  unfold latest_signals_for_token finite_branch initial_remaining
  rw [h1]
  simp only [h2, if_true, h3, Bool.false_eq_true, if_false, h4]

/-- C4 (amended): the invariant that actually holds is uniqueness per
(signal, receiver, token_hash) triple — if no two Delivery Records
share that triple before a delivery call, none do afterwards, on every
branch of `latest_signals_for_token` (error, no-subscription, unlimited
and finite). -/
theorem c4_triple_uniqueness_invariant (db : DB) (tok : String) (limit now : Nat)
    (h : reads_nodup db) :
    reads_nodup (latest_signals_for_token db tok limit now).2 := by
  unfold latest_signals_for_token
  cases hu : user_by_api_token db tok with
  | none => exact h
  | some receiver =>
    by_cases ha : receiver.is_active = true
    · simp only [ha, if_true]
      by_cases hs : ((subscriptions_for_receiver db receiver).map (fun s => s.sender_id)).isEmpty = true
      · simp only [hs, if_true]
        exact h
      · simp only [hs, if_false]
        by_cases hq : (effective_quota_for_token db receiver (some tok)).1 = true
        · simp only [hq, if_true]
          exact record_all_nodup _ _ _ _ _ _ h
        · simp only [hq, if_false]
          exact deliver_loop_nodup _ _ _ _ _ _ _ _ _ h
    · simp only [ha, if_false]
      exact h

theorem deliver_loop_exhausted_delivered_mem (receiver : User) (th : String) (now limit : Nat) :
    ∀ (cands : List TradeSignal) (db : DB) (acc : List TradeSignal) (seen : Nat) (r : Int),
      r ≤ 0 →
      ∀ x ∈ (deliver_loop receiver th now limit cands db acc seen r).delivered,
        x ∈ acc ∨ is_buy_sell x.action = false := by
  intro cands
  induction cands with
  | nil => intro db acc seen r _ x hx; exact Or.inl hx
  | cons s rest ih =>
    intro db acc seen r hr x hx
    rw [deliver_loop] at hx
    by_cases hb : is_buy_sell s.action = true
    · rw [if_pos hb, if_pos hr] at hx
      exact ih db acc seen r hr x hx
    · rw [if_neg hb] at hx
      have hb' : is_buy_sell s.action = false := by
        cases h : is_buy_sell s.action
        · rfl
        · exact absurd h hb
      by_cases hl : limit ≤ (acc ++ [s]).length
      · rw [if_pos hl] at hx
        simp only [List.mem_append, List.mem_singleton] at hx
        rcases hx with h | h
        · exact Or.inl h
        · subst h; exact Or.inr hb'
      · rw [if_neg hl] at hx
        rcases ih _ _ _ _ hr x hx with h | h
        · simp only [List.mem_append, List.mem_singleton] at h
          rcases h with h | h
          · exact Or.inl h
          · subst h; exact Or.inr hb'
        · exact Or.inr h

/-- C2: for an identity whose remaining daily quota is 0 (finite plan,
used ≥ quota), `latest_signals_for_token` still returns normally (no
exception), delivers exactly the non-actionable candidates up to the
page limit — hence zero actionable signals, in particular zero
not-previously-delivered ones — and charges no quota
(`used_today` stays at its pre-call value). -/
theorem c2_quota_exhaustion_is_soft (db : DB) (tok : String) (limit now : Nat) (receiver : User)
    (h1 : user_by_api_token db tok = some receiver)
    (h2 : receiver.is_active = true)
    (h3 : ((subscriptions_for_receiver db receiver).map (fun s => s.sender_id)).isEmpty = false)
    (h4 : (effective_quota_for_token db receiver (some tok)).1 = false)
    (h5 : max ((effective_quota_for_token db receiver (some tok)).2.getD 0
            - (count_actionable_opens_today db receiver now : Int)) 0 = 0)
    (h6 : 1 ≤ limit) :
    deliver_result_is_ok (latest_signals_for_token db tok limit now) = true
    ∧ deliver_result_delivered (latest_signals_for_token db tok limit now)
        = ((candidate_signals db
              ((subscriptions_for_receiver db receiver).map (fun s => s.sender_id)) limit).filter
            (fun s => !is_buy_sell s.action)).take limit
    ∧ deliver_result_used_today (latest_signals_for_token db tok limit now)
        = some (count_actionable_opens_today db receiver now) := by
  have hr0 : initial_remaining db receiver tok now = 0 := by
    unfold initial_remaining
    rw [h5]
    exact min_eq_left (le_max_right _ _)
  rw [latest_finite_eq db tok limit now receiver h1 h2 h3 h4]
  unfold finite_branch
  simp only [deliver_result_is_ok, deliver_result_delivered, deliver_result_used_today, hr0]
  refine ⟨trivial, ?_, ?_⟩
  · rw [deliver_loop_exhausted_delivered receiver (hash_token_for_read tok) now limit _ db []
        0 0 le_rfl (by simpa using h6)]
    simp
  · rw [deliver_loop_exhausted_seen receiver (hash_token_for_read tok) now limit _ db [] 0 0
        le_rfl]
    simp

/-- C8: an actionable, never-delivered candidate encountered while the
remaining quota is 0 is skipped entirely: it is not delivered, no
Delivery Record is created for its (identity, signal, token) key — so a
later poll with fresh quota can still deliver it — and no quota is
charged by the call. -/
theorem c8_exhausted_skip_preserves_state (db : DB) (tok : String) (limit now : Nat) (receiver : User) (s : TradeSignal)
    (h1 : user_by_api_token db tok = some receiver)
    (h2 : receiver.is_active = true)
    (h3 : ((subscriptions_for_receiver db receiver).map (fun x => x.sender_id)).isEmpty = false)
    (h4 : (effective_quota_for_token db receiver (some tok)).1 = false)
    (h5 : initial_remaining db receiver tok now = 0)
    (h6 : s ∈ candidate_signals db
            ((subscriptions_for_receiver db receiver).map (fun x => x.sender_id)) limit)
    (h7 : is_buy_sell s.action = true)
    (h8 : _was_read_by_token db receiver s (hash_token_for_read tok) = false)
    (h9 : (db.signals.map (fun x => x.id)).Nodup) :
    s ∉ deliver_result_delivered (latest_signals_for_token db tok limit now)
    ∧ _was_read_by_token (latest_signals_for_token db tok limit now).2 receiver s
        (hash_token_for_read tok) = false
    ∧ deliver_result_used_today (latest_signals_for_token db tok limit now)
        = some (count_actionable_opens_today db receiver now) := by
  rw [latest_finite_eq db tok limit now receiver h1 h2 h3 h4]
  unfold finite_branch
  simp only [deliver_result_delivered, deliver_result_used_today, h5]
  refine ⟨?_, ?_, ?_⟩
  · intro hmem
    have := deliver_loop_exhausted_delivered_mem receiver (hash_token_for_read tok) now limit
      _ db [] 0 0 le_rfl s hmem
    rcases this with h | h
    · exact absurd h (List.not_mem_nil s)
    · rw [h7] at h
      exact Bool.true_eq_false.mp h
  · by_contra hc
    rw [Bool.not_eq_false] at hc
    unfold _was_read_by_token at hc
    rw [List.any_eq_true] at hc
    obtain ⟨r, hr, hrp⟩ := hc
    have hmem := deliver_loop_exhausted_reads receiver (hash_token_for_read tok) now limit
      _ db [] 0 0 le_rfl r hr
    simp only [Bool.and_eq_true, beq_iff_eq] at hrp
    obtain ⟨⟨e1, e2⟩, e3⟩ := hrp
    rcases hmem with hin | ⟨c, hc', hca, hcx⟩
    · have : _was_read_by_token db receiver s (hash_token_for_read tok) = true := by
        unfold _was_read_by_token
        rw [List.any_eq_true]
        exact ⟨r, hin, by simp [e1, e2, e3]⟩
      rw [this] at h8
      exact Bool.true_eq_false.mp h8
    · subst hcx
      simp only at e1
      have hcs : c = s :=
        List.inj_on_of_nodup_map h9
          (candidate_signals_subset _ _ _ _ hc')
          (candidate_signals_subset _ _ _ _ h6) e1
      rw [hcs, h7] at hca
      exact Bool.true_eq_false.mp hca
  · rw [deliver_loop_exhausted_seen receiver (hash_token_for_read tok) now limit _ db [] 0 0
        le_rfl]
    simp

/-- C10 (amended): within one finite-plan delivery call, the number of
newly quota-charged actionable signals (`used_today` after the call
minus before) never exceeds
`min(max(quota - total_used, 0), max(quota - token_used, 0))` — the
per-identity and per-token bounds, each clamped at zero. -/
theorem c10_clamped_quota_bound (db : DB) (tok : String) (limit now : Nat) (receiver : User)
    (h1 : user_by_api_token db tok = some receiver)
    (h2 : receiver.is_active = true)
    (h3 : ((subscriptions_for_receiver db receiver).map (fun x => x.sender_id)).isEmpty = false)
    (h4 : (effective_quota_for_token db receiver (some tok)).1 = false) :
    ((deliver_result_used_today (latest_signals_for_token db tok limit now)).getD 0 : Int)
      - (count_actionable_opens_today db receiver now : Int)
      ≤ min
          (max ((effective_quota_for_token db receiver (some tok)).2.getD 0
            - (count_actionable_opens_today db receiver now : Int)) 0)
          (max ((effective_quota_for_token db receiver (some tok)).2.getD 0
            - (token_daily_usage_today db receiver (hash_token_for_read tok) now : Int)) 0) := by
  rw [latest_finite_eq db tok limit now receiver h1 h2 h3 h4]
  unfold finite_branch
  simp only [deliver_result_used_today]
  have hb := deliver_loop_seen_le receiver (hash_token_for_read tok) now limit
    (candidate_signals db
      ((subscriptions_for_receiver db receiver).map (fun x => x.sender_id)) limit)
    db [] 0 (initial_remaining db receiver tok now)
  have h0 : (0 : Int) ≤ initial_remaining db receiver tok now :=
    le_min (le_max_right _ _) (le_max_right _ _)
  have hmax : max (initial_remaining db receiver tok now) 0
      = initial_remaining db receiver tok now := max_eq_left h0
  rw [hmax] at hb
  show ((some (count_actionable_opens_today db receiver now
      + (deliver_loop receiver (hash_token_for_read tok) now limit
          (candidate_signals db
            ((subscriptions_for_receiver db receiver).map (fun x => x.sender_id)) limit)
          db [] 0 (initial_remaining db receiver tok now)).seen)).getD 0 : Int)
      - (count_actionable_opens_today db receiver now : Int)
      ≤ initial_remaining db receiver tok now
  simp only [Option.getD_some]
  push_cast
  omega

/-- C6 (amended): the `User.daily_quota` override column is ignored by
the quota computation — `effective_quota_for_token` returns the same
answer whatever value (0, any number, or absent) the override holds, so
the plan default always governs. -/
theorem c6_override_ignored (db : DB) (u : User) (bearer : Option String) (q : Option Int) :
    effective_quota_for_token db { u with daily_quota := q } bearer
      = effective_quota_for_token db u bearer := rfl

/-- C7: a credential that resolves to no active identity (unknown,
invalid, or inactive token; expired tokens are purged/deactivated
upstream) makes `latest_signals_for_token` raise the authentication
error before any quota or delivery logic runs, with the store returned
unchanged — no Delivery Record, no quota charge, no state change. -/
theorem c7_auth_failure_rejected_no_side_effects (db : DB) (tok : String) (limit now : Nat)
    (h : user_by_api_token db tok = none) :
    latest_signals_for_token db tok limit now
      = (.error "Invalid or inactive API token", db) := by
  unfold latest_signals_for_token
  rw [h]

/-- C3: with no token record (legacy path, the identity's own plan),
the remaining-today computation returns
`max(plan_default - used_today, 0)` with `plan_default(free) = 1` and
`plan_default(silver) = 3`, returns the `None` sentinel for `gold`, and
`used_today` counts only Delivery Records stamped at or after the
current UTC midnight (reads before the boundary never contribute).  The
computation is a pure function of the store. -/
theorem c3_remaining_today_plan_defaults (db : DB) (receiver : User) (now : Nat) :
    (normalize_plan (some (if receiver.plan == "" then "free" else receiver.plan)) = "free" →
      remaining_today db receiver none now
        = some (max (1 - (count_actionable_opens_today db receiver now : Int)) 0))
    ∧ (normalize_plan (some (if receiver.plan == "" then "free" else receiver.plan)) = "silver" →
      remaining_today db receiver none now
        = some (max (3 - (count_actionable_opens_today db receiver now : Int)) 0))
    ∧ (normalize_plan (some (if receiver.plan == "" then "free" else receiver.plan)) = "gold" →
      remaining_today db receiver none now = none)
    ∧ count_actionable_opens_today db receiver now
        = count_actionable_opens_today
            { db with
              reads := db.reads.filter (fun r => decide (start_of_utc_day now ≤ r.read_at)) }
            receiver now := by
  refine ⟨?_, ?_, ?_, ?_⟩
  · intro hp
    have hl : plan_limits (some (if receiver.plan == "" then "free" else receiver.plan))
        = ⟨some 1, false⟩ := by
      unfold plan_limits
      rw [hp]
      rfl
    unfold remaining_today effective_quota_for_token
    simp only [hl]
    simp
  · intro hp
    have hl : plan_limits (some (if receiver.plan == "" then "free" else receiver.plan))
        = ⟨some 3, false⟩ := by
      unfold plan_limits
      rw [hp]
      rfl
    unfold remaining_today effective_quota_for_token
    simp only [hl]
    simp
  · intro hp
    have hl : plan_limits (some (if receiver.plan == "" then "free" else receiver.plan))
        = ⟨none, true⟩ := by
      unfold plan_limits
      rw [hp]
      rfl
    unfold remaining_today effective_quota_for_token
    simp only [hl]
    simp
  · unfold count_actionable_opens_today
    simp only []
    rw [List.filter_filter]
    congr 3
    apply List.filter_congr
    intro r _
    cases hq : decide (start_of_utc_day now ≤ r.read_at) <;> simp [hq]

/-- The only keys of `PLAN_DEFAULTS` are `free`, `silver`, `gold`. -/
theorem plan_defaults_lookup_keys (p : String) (h : (PLAN_DEFAULTS.lookup p).isSome = true) :
    p = "free" ∨ p = "silver" ∨ p = "gold" := by
  by_cases h1 : p = "free"
  · exact Or.inl h1
  by_cases h2 : p = "silver"
  · exact Or.inr (Or.inl h2)
  by_cases h3 : p = "gold"
  · exact Or.inr (Or.inr h3)
  exfalso
  have e1 : (p == "free") = false := by simpa using h1
  have e2 : (p == "silver") = false := by simpa using h2
  have e3 : (p == "gold") = false := by simpa using h3
  unfold PLAN_DEFAULTS at h
  simp [List.lookup, e1, e2, e3] at h

/-- C9: `normalize_plan` always lands in {free, silver, gold}; any
value whose stripped, lowercased form is outside that set — including
`None` and the empty string — normalizes to `free`, whose limits are
daily quota 1 and not unlimited (never rejected, never unlimited). -/
theorem c9_unknown_plan_defaults_to_free (p : Option String) :
    (normalize_plan p = "free" ∨ normalize_plan p = "silver" ∨ normalize_plan p = "gold")
    ∧ (py_lower (py_strip (p.getD "")) ∉ (["free", "silver", "gold"] : List String) →
        normalize_plan p = "free" ∧ plan_limits p = ⟨some 1, false⟩)
    ∧ normalize_plan none = "free"
    ∧ normalize_plan (some "") = "free" := by
  refine ⟨?_, ?_, by decide, by decide⟩
  · by_cases hs : (PLAN_DEFAULTS.lookup (py_lower (py_strip (p.getD "")))).isSome = true
    · have : normalize_plan p = py_lower (py_strip (p.getD "")) := by
        unfold normalize_plan
        rw [if_pos hs]
      rw [this]
      exact plan_defaults_lookup_keys _ hs
    · have : normalize_plan p = "free" := by
        unfold normalize_plan
        rw [if_neg hs]
      rw [this]
      exact Or.inl rfl
  · intro hmem
    have hs : ¬ (PLAN_DEFAULTS.lookup (py_lower (py_strip (p.getD "")))).isSome = true := by
      intro hs
      exact hmem (by
        rcases plan_defaults_lookup_keys _ hs with h | h | h <;> simp [h])
    have hn : normalize_plan p = "free" := by
      unfold normalize_plan
      rw [if_neg hs]
    refine ⟨hn, ?_⟩
    unfold plan_limits
    rw [hn]
    rfl

/-- C2 witness: on `exC2db` (quota 1 fully used, candidates = 3
non-actionable + 2 actionable), the call succeeds and returns exactly
the three non-actionable signals (ids 6, 4, 2) with no new charge. -/
theorem c2_quota_exhaustion_witness :
    deliver_result_is_ok (latest_signals_for_token exC2db "tkA" 10 1000) = true
    ∧ (deliver_result_delivered (latest_signals_for_token exC2db "tkA" 10 1000)).map
        (fun s => s.id) = [6, 4, 2]
    ∧ deliver_result_used_today (latest_signals_for_token exC2db "tkA" 10 1000) = some 1 := by
  have h := c2_quota_exhaustion_is_soft exC2db "tkA" 10 1000 ⟨1, "tkA", "free", none, true⟩
    (by decide) (by decide) (by decide) (by decide) (by decide) (by decide)
  refine ⟨h.1, ?_, ?_⟩
  · rw [h.2.1]; decide
  · rw [h.2.2]; decide

/-- C8 witness: on `exC2db` with remaining quota 0, the undelivered
`buy` candidate (id 3) is not delivered and acquires no Delivery
Record. -/
theorem c8_exhausted_skip_witness :
    (⟨3, 2, "buy", 120⟩ : TradeSignal) ∉
        deliver_result_delivered (latest_signals_for_token exC2db "tkA" 10 1000)
    ∧ _was_read_by_token (latest_signals_for_token exC2db "tkA" 10 1000).2
        ⟨1, "tkA", "free", none, true⟩ ⟨3, 2, "buy", 120⟩ (hash_token_for_read "tkA") = false := by
  have h := c8_exhausted_skip_preserves_state exC2db "tkA" 10 1000 ⟨1, "tkA", "free", none, true⟩ ⟨3, 2, "buy", 120⟩
    (by decide) (by decide) (by decide) (by decide) (by decide) (by decide) (by decide)
    (by decide) (by decide)
  exact ⟨h.1, h.2.1⟩

/-- C10 witness: on `exC1db` the single call charges 1 ≤
min(max(1-0,0), max(1-0,0)) = 1. -/
theorem c10_clamped_quota_witness :
    ((deliver_result_used_today (latest_signals_for_token exC1db "tkA" 10 1000)).getD 0 : Int)
      - (count_actionable_opens_today exC1db ⟨1, "tkA", "free", none, true⟩ 1000 : Int)
      ≤ min
          (max ((effective_quota_for_token exC1db ⟨1, "tkA", "free", none, true⟩
              (some "tkA")).2.getD 0
            - (count_actionable_opens_today exC1db ⟨1, "tkA", "free", none, true⟩ 1000 : Int)) 0)
          (max ((effective_quota_for_token exC1db ⟨1, "tkA", "free", none, true⟩
              (some "tkA")).2.getD 0
            - (token_daily_usage_today exC1db ⟨1, "tkA", "free", none, true⟩
                (hash_token_for_read "tkA") 1000 : Int)) 0) :=
  c10_clamped_quota_bound exC1db "tkA" 10 1000 ⟨1, "tkA", "free", none, true⟩
    (by decide) (by decide) (by decide) (by decide)

/-- C3 witness: on `exC3db`, a `free`-plan receiver whose only
delivery was on UTC day 0 has a full quota of 1 remaining on day 1
(usage does not leak across the UTC midnight boundary). -/
theorem c3_remaining_today_witness :
    remaining_today exC3db ⟨1, "tkA", "free", none, true⟩ none 90000 = some 1 := by
  have h := (c3_remaining_today_plan_defaults exC3db ⟨1, "tkA", "free", none, true⟩ 90000).1 (by decide)
  rw [h]
  decide

/-- C4 witness: `exC4db` satisfies the triple-uniqueness invariant and
still satisfies it after a delivery call. -/
theorem c4_triple_uniqueness_witness :
    reads_nodup ((latest_signals_for_token exC4db "t1" 10 1000).2) :=
  c4_triple_uniqueness_invariant exC4db "t1" 10 1000 (show (exC4db.reads.map read_key).Nodup by decide)

/-- C7 witness: on `exC7db` the deactivated token `tkB` is rejected
with the authentication error and the store is untouched. -/
theorem c7_auth_failure_witness :
    latest_signals_for_token exC7db "tkB" 10 1000
      = (.error "Invalid or inactive API token", exC7db) :=
  c7_auth_failure_rejected_no_side_effects exC7db "tkB" 10 1000 (by decide)

/-- C9 witness: the unknown plan `platinum` normalizes to `free` with
daily quota 1, not unlimited. -/
theorem c9_unknown_plan_witness :
    normalize_plan (some "platinum") = "free"
    ∧ plan_limits (some "platinum") = ⟨some 1, false⟩ :=
  (c9_unknown_plan_defaults_to_free (some "platinum")).2.1 (by decide)
